import Mathlib

/-!
Verification of the sandboxed filesystem MCP server
(`filesystem_mcp_standard.py`) against its specification.

The Python source is shallowly embedded: paths are strings, the
OS-level `Path.resolve` canonicalization is an abstract parameter
`resolve : String → Option String` (`none` models a resolution
exception), and the filesystem is an abstract map from resolved path
strings to file nodes / directory listings.  The sandbox checks,
the four file operations and the request dispatcher are translated
branch by branch from the source.
-/

namespace FsMcp

/-- Is `needle` a leading segment of `hay`? (Python `str.startswith`,
character by character.) -/
def isPre : List Char → List Char → Bool
  | [], _ => true
  | _ :: _, [] => false
  | a :: as, b :: bs => a == b && isPre as bs

/-- Is `needle` a contiguous substring of `hay`? (Python `needle in hay`.) -/
def hasSub (needle : List Char) : List Char → Bool
  | [] => isPre needle []
  | c :: rest => isPre needle (c :: rest) || hasSub needle rest

/-- ASCII lower-casing of a character list (Python `str.lower` on the
ASCII paths and patterns this server manipulates). -/
def lowerChars (cs : List Char) : List Char :=
  cs.map Char.toLower

/-- ASCII lower-casing of a string. -/
def lowerStr (s : String) : String :=
  String.mk (lowerChars s.data)

/-- `strStarts hay needle` is Python `hay.startswith(needle)`. -/
def strStarts (hay needle : String) : Bool :=
  isPre needle.data hay.data

/-- Python `os.path.isabs` on a POSIX system: leading `/`. -/
def isAbs (s : String) : Bool :=
  strStarts s (String.mk ['/'])

/-- `pathlib` `/` operator: join `root` and a relative path with `/`. -/
def joinPath (root s : String) : String :=
  root ++ (String.mk ['/']) ++ s

/-- The path object built by `get_safe_path` before any safety check:
relative inputs are joined onto the root, absolute inputs are kept. -/
def candidate (root p : String) : String :=
  if isAbs p then p else joinPath root p

/-- The fixed denylist `unsafe_patterns` from `is_safe_path`
(source lines 54-57), verbatim and in source order. -/
def denied_patterns : List String :=
  ["..", "__pycache__", ".git", ".env", "node_modules",
   ".ssh", ".aws", ".docker", "passwords", "secrets"]

/-- `is_safe_path` (source lines 44-66).  The candidate path is
canonicalized by the abstract `resolve`; a resolution exception
(`none`) is caught and yields `false`.  Otherwise the resolved string
must start with the root string and, lower-cased, must contain none of
the denylisted substrings. -/
def is_safe_path (root : String) (resolve : String → Option String)
    (p : String) : Bool :=
  match resolve p with
  | none => false
  | some r =>
    strStarts r root &&
      denied_patterns.all (fun pat => !(hasSub pat.data (lowerChars r.data)))

/-- `get_safe_path` (source lines 68-81): join relative paths onto the
root, keep absolute ones, then vet with `is_safe_path`; the returned
path is the unresolved candidate, `none` on rejection. -/
def get_safe_path (root : String) (resolve : String → Option String)
    (p : String) : Option String :=
  if is_safe_path root resolve (candidate root p) then some (candidate root p)
  else none

/-- Last path component: the characters after the final `/`
(Python `Path.name`). -/
def baseName (s : String) : String :=
  String.mk (((s.data.reverse).takeWhile (fun c => c != '/')).reverse)

/-- The trailing segment of a name starting at its LAST dot, when the
name contains a dot at all. -/
def lastExt : List Char → Option (List Char)
  | [] => none
  | c :: rest =>
    match lastExt rest with
    | some e => some e
    | none => if c == '.' then some (c :: rest) else none

/-- `pathlib` suffix of a file name: the part from the last dot, but
empty when the dot is the first character (dotfiles such as `.env`
have no suffix) or the last character. -/
def pySuffix (name : String) : String :=
  match lastExt name.data with
  | none => String.mk []
  | some e =>
    if e.length < name.data.length && 2 ≤ e.length then String.mk e
    else String.mk []

/-- `str(item.relative_to(root_path))` for an item path lying strictly
under the root: drop the root and the following separator. -/
def relTo (root ip : String) : String :=
  String.mk (ip.data.drop (root.data.length + 1))

/-- Directory-tree view of the sandboxed filesystem, as enumerated by
`iterdir`: a named entry is a sized file or a directory with children.
Symlinks are not modelled, so entry paths are already canonical. -/
inductive FSEntry where
  | file (name : String) (size : Nat)
  | dir (name : String) (children : List FSEntry)

def FSEntry.name : FSEntry → String
  | .file n _ => n
  | .dir n _ => n

def FSEntry.isDir : FSEntry → Bool
  | .file _ _ => false
  | .dir _ _ => true

def FSEntry.size : FSEntry → Nat
  | .file _ sz => sz
  | .dir _ _ => 0

/-- Stat/read view of one path: whether it is a regular file, its
`st_size`, its decoded text content, and (for directories) its
children.  The time and permission stat fields are not modelled; no
claim refers to them. -/
structure FileNode where
  isFile : Bool
  size : Nat
  content : String
  children : List FSEntry

/-- `self.max_file_size = 10 * 1024 * 1024` (source line 33). -/
def max_file_size : Nat := 10 * 1024 * 1024

/-- `self.allowed_extensions` (source lines 34-38), verbatim. -/
def allowed_extensions : List String :=
  [".txt", ".md", ".json", ".yaml", ".yml", ".xml", ".csv",
   ".py", ".js", ".ts", ".html", ".css", ".sql", ".sh",
   ".bat", ".ps1", ".dockerfile", ".gitignore", ".env"]

/-- Success payload of `read_file`. -/
structure ReadOk where
  path : String
  content : String
  size : Nat
  encoding : String
deriving DecidableEq

/-- `read_file` (source lines 126-161).  The path argument is
`Option`al because the dispatcher forwards `arguments.get("path")`;
a `None` path makes `os.path.isabs` raise inside `get_safe_path`,
which is caught and reported as the generic sandbox rejection.
Checks run in source order: sandbox, existence, regular-file type,
size cap, extension allow-list, then the content is returned.  Decoding
is abstracted away: `content` is already the decoded text. -/
def read_file (root : String) (resolve : String → Option String)
    (fs : String → Option FileNode) (p : Option String) (enc : String) :
    Except String ReadOk :=
  match p with
  | none => .error ("Invalid or unsafe path")
  | some ps =>
    match get_safe_path root resolve ps with
    | none => .error ("Invalid or unsafe path")
    | some sp =>
      match fs sp with
      | none => .error ("File does not exist")
      | some node =>
        if !node.isFile then .error ("Path is not a file")
        else if node.size > max_file_size then
          .error (("File too large (max ") ++
            toString (max_file_size / 1024 / 1024) ++ ("MB)"))
        else if !(allowed_extensions.contains (lowerStr (pySuffix (baseName sp))))
        then
          .error (("File type ") ++ pySuffix (baseName sp) ++ (" not allowed"))
        else .ok ⟨ps, node.content, node.content.length, enc⟩

/-- One entry of a `list_directory` result: name, kind, path relative
to the root, and the best-effort size annotation for files. -/
structure DirItem where
  name : String
  isDir : Bool
  rel : String
  size : Option Nat
deriving DecidableEq

/-- Success payload of `list_directory`. -/
structure ListOk where
  path : String
  items : List DirItem
deriving DecidableEq

/-- Code-point comparison of character lists: Python `str` `<=`,
which compares strings lexicographically by code point. -/
def charsLe : List Char → List Char → Bool
  | [], _ => true
  | _ :: _, [] => false
  | a :: as, b :: bs =>
    if a.toNat < b.toNat then true
    else if b.toNat < a.toNat then false
    else charsLe as bs

/-- First component of the sort key
`(x["type"] == "file", x["name"])`: `False` (0) for directories,
`True` (1) for files. -/
def fileRank (a : DirItem) : Nat :=
  if a.isDir then 0 else 1

/-- Ordering of the Python sort keys `(x["type"] == "file", x["name"])`:
tuple comparison, `False < True`, names by code point. -/
def itemKeyLe (a b : DirItem) : Bool :=
  if fileRank a < fileRank b then true
  else if fileRank b < fileRank a then false
  else charsLe a.name.data b.name.data

/-- The `item_info` record built per entry (source lines 101-113). -/
def dirItemOf (root sp : String) (e : FSEntry) : DirItem :=
  ⟨e.name, e.isDir, relTo root (sp ++ (String.mk ['/']) ++ e.name),
   if e.isDir then none else some e.size⟩

/-- `list_directory` (source lines 83-124): sandbox check, existence
and directory-kind checks, then each child passing its own sandbox
check becomes an item, and the items are sorted by the stable Python
sort with key `(x["type"] == "file", x["name"])`. -/
def list_directory (root : String) (resolve : String → Option String)
    (fs : String → Option FileNode) (p : String) : Except String ListOk :=
  match get_safe_path root resolve p with
  | none => .error ("Invalid or unsafe path")
  | some sp =>
    match fs sp with
    | none => .error ("Path does not exist")
    | some node =>
      if node.isFile then .error ("Path is not a directory")
      else
        let items := node.children.filterMap (fun e =>
          if is_safe_path root resolve (sp ++ (String.mk ['/']) ++ e.name)
          then some (dirItemOf root sp e) else none)
        .ok ⟨p, List.insertionSort (fun a b => itemKeyLe a b = true) items⟩

/-- One match record built by `search_recursive`. -/
structure SMatch where
  name : String
  rel : String
  isDir : Bool
deriving DecidableEq

/-- Success payload of `search_files`. -/
structure SearchOk where
  pattern : String
  searchPath : String
  found : List SMatch
deriving DecidableEq

/-- The loop body of `search_recursive` (source lines 175-195) over the
entries of one directory, with the `matches` accumulator passed
explicitly.  Per entry: skip it unless its own path is sandbox-safe;
append a match when the lowered pattern occurs in the lowered name;
descend into a subdirectory only while fewer than 100 matches are
accumulated, and only when the child depth stays within the bound of 5
(the source tests `depth > 5` on entry to the recursive call). -/
def searchItems (root : String) (resolve : String → Option String)
    (pattern : String) :
    String → List FSEntry → Nat → List SMatch → List SMatch
  | _, [], _, acc => acc
  | curPath, .file nm _ :: rest, depth, acc =>
    let itemPath := curPath ++ (String.mk ['/']) ++ nm
    let m :=
      if is_safe_path root resolve itemPath then
        if hasSub (lowerChars pattern.data) (lowerChars nm.data)
        then acc ++ [⟨nm, relTo root itemPath, false⟩]
        else acc
      else acc
    searchItems root resolve pattern curPath rest depth m
  | curPath, .dir nm cs :: rest, depth, acc =>
    let itemPath := curPath ++ (String.mk ['/']) ++ nm
    let m :=
      if is_safe_path root resolve itemPath then
        let m1 :=
          if hasSub (lowerChars pattern.data) (lowerChars nm.data)
          then acc ++ [⟨nm, relTo root itemPath, true⟩]
          else acc
        if m1.length < 100 then
          if depth + 1 > 5 then m1
          else searchItems root resolve pattern itemPath cs (depth + 1) m1
        else m1
      else acc
    searchItems root resolve pattern curPath rest depth m

/-- `search_recursive` (source lines 175-195): return the accumulator
unchanged past depth 5, otherwise process the directory's entries. -/
def searchDir (root : String) (resolve : String → Option String)
    (pattern : String) (path : String) (children : List FSEntry)
    (depth : Nat) (acc : List SMatch) : List SMatch :=
  if depth > 5 then acc
  else searchItems root resolve pattern path children depth acc

/-- `search_files` (source lines 163-207): sandbox and existence
checks, recursive search from depth 0 with an empty accumulator, and
the final `matches[:100]` truncation.  A starting path that is a
regular file makes `iterdir` raise; the outer handler turns that
OS error text into an error result, abstracted here. -/
def search_files (root : String) (resolve : String → Option String)
    (fs : String → Option FileNode) (p : String) (pattern : String) :
    Except String SearchOk :=
  match get_safe_path root resolve p with
  | none => .error ("Invalid or unsafe path")
  | some sp =>
    match fs sp with
    | none => .error ("Path does not exist")
    | some node =>
      if node.isFile then .error ("Not a directory")
      else .ok ⟨pattern, p,
        (searchDir root resolve pattern sp node.children 0 []).take 100⟩

/-- Success payload of `get_file_info`. -/
structure InfoOk where
  path : String
  name : String
  isDir : Bool
  size : Nat
  extension : Option String
  readable : Option Bool
deriving DecidableEq

/-- `get_file_info` (source lines 209-239): sandbox and existence
checks, then the metadata record; files also report their suffix and
whether it is allow-listed.  The stat time and permission fields are
not modelled (no claim refers to them). -/
def get_file_info (root : String) (resolve : String → Option String)
    (fs : String → Option FileNode) (p : Option String) :
    Except String InfoOk :=
  match p with
  | none => .error ("Invalid or unsafe path")
  | some ps =>
    match get_safe_path root resolve ps with
    | none => .error ("Invalid or unsafe path")
    | some sp =>
      match fs sp with
      | none => .error ("Path does not exist")
      | some node =>
        .ok ⟨ps, baseName sp, !node.isFile, node.size,
          if node.isFile then some (pySuffix (baseName sp)) else none,
          if node.isFile
          then some (allowed_extensions.contains (lowerStr (pySuffix (baseName sp))))
          else none⟩

/-- An incoming protocol message as consumed by `handle_request`
(source lines 241-245): the method name, the correlation identifier
(of an arbitrary type `ι`, since JSON ids are opaque), and the
`params` fields used by `tools/call`: `params.get("name")` and the
`arguments` mapping. -/
structure Request (ι : Type) where
  method : String
  id : ι
  toolName : Option String
  args : List (String × String)

/-- The body of a response envelope: the `initialize` result, the
static `tools/list` catalog, a `tools/call` result wrapping one tool
output of type `β`, or a protocol-level error (`code`, `message`). -/
inductive RespBody (β : Type) where
  | initResult
  | toolsListResult
  | toolResult (out : β)
  | protoError (code : Int) (msg : String)
deriving DecidableEq

/-- A response envelope: the echoed correlation identifier plus a body. -/
structure Response (ι β : Type) where
  id : ι
  body : RespBody β
deriving DecidableEq

/-- `handle_request` (source lines 241-395), parametric in the four
tool implementations so the correlation-identifier handling can be
stated independently of them.  Branches in source order: `initialize`,
the `initialized` notification (no response), `tools/list`,
`tools/call` with its five-way tool dispatch (arguments fetched with
`arguments.get`, with the source's defaults), and the unknown-method
error.  A missing tool name reaches the unknown-tool branch, where
Python formats it as `None`. -/
def handle_request {ι β : Type}
    (listDir : String → β) (readF : Option String → String → β)
    (searchF : Option String → String → β) (fileInfo : Option String → β)
    (req : Request ι) : Option (Response ι β) :=
  if req.method = "initialize" then some ⟨req.id, .initResult⟩
  else if req.method = "initialized" then none
  else if req.method = "tools/list" then some ⟨req.id, .toolsListResult⟩
  else if req.method = "tools/call" then
    match req.toolName with
    | some tn =>
      if tn = "list_directory" then
        some ⟨req.id, .toolResult (listDir ((List.lookup ("path") req.args).getD (".")))⟩
      else if tn = "read_file" then
        some ⟨req.id, .toolResult (readF (List.lookup ("path") req.args)
          ((List.lookup ("encoding") req.args).getD ("utf-8")))⟩
      else if tn = "search_files" then
        some ⟨req.id, .toolResult (searchF (List.lookup ("pattern") req.args)
          ((List.lookup ("path") req.args).getD (".")))⟩
      else if tn = "get_file_info" then
        some ⟨req.id, .toolResult (fileInfo (List.lookup ("path") req.args))⟩
      else some ⟨req.id, .protoError (-32601) (("Unknown tool: ") ++ tn)⟩
    | none => some ⟨req.id, .protoError (-32601) ("Unknown tool: None")⟩
  else some ⟨req.id, .protoError (-32601) (("Unknown method: ") ++ req.method)⟩

/-- The serialized output of one tool call, as embedded in the
`content[0].text` field: a tagged union over the four operations'
results (Python erases this distinction through `json.dumps`). -/
inductive ToolOut where
  | listOut (r : Except String ListOk)
  | readOut (r : Except String ReadOk)
  | searchOut (r : Except String SearchOk)
  | infoOut (r : Except String InfoOk)

/-- Root of the concrete server used by the witnesses. -/
def rootW : String := "/sandbox"

/-- Resolution on a symlink-free filesystem: every candidate is
already canonical. -/
def resolveW : String → Option String := fun s => some s

/-- Concrete filesystem for the witnesses: one allow-listed text file
of exactly the size cap, one a byte over, one with a denied extension,
and one directory. -/
def fsW : String → Option FileNode := fun s =>
  if s = "/sandbox/notes.txt" then some ⟨true, max_file_size, "hello", []⟩
  else if s = "/sandbox/big.txt" then some ⟨true, max_file_size + 1, "hello", []⟩
  else if s = "/sandbox/tool.exe" then some ⟨true, 4, "MZ", []⟩
  else if s = "/sandbox/docs" then
    some ⟨false, 0, "", [.file ("a.txt") 5, .file ("B.txt") 5, .dir ("sub") []]⟩
  else none

/-- The `list_directory` tool of the concrete witness server. -/
def opsListW : String → ToolOut := fun p =>
  .listOut (list_directory rootW resolveW fsW p)

/-- The `read_file` tool of the concrete witness server. -/
def opsReadW : Option String → String → ToolOut := fun p enc =>
  .readOut (read_file rootW resolveW fsW p enc)

/-- The `search_files` tool of the concrete witness server.  A missing
pattern makes `pattern.lower()` raise `AttributeError` inside the
traversal, which the outer handler stringifies; the traversal is only
reached when the start path is safe and exists. -/
def opsSearchW : Option String → String → ToolOut := fun pat p =>
  .searchOut
    (match get_safe_path rootW resolveW p with
     | none => Except.error ("Invalid or unsafe path")
     | some sp =>
       match fsW sp with
       | none => Except.error ("Path does not exist")
       | some _ =>
         match pat with
         | none => Except.error ("'NoneType' object has no attribute 'lower'")
         | some pt => search_files rootW resolveW fsW p pt)

/-- The `get_file_info` tool of the concrete witness server. -/
def opsInfoW : Option String → ToolOut := fun p =>
  .infoOut (get_file_info rootW resolveW fsW p)

/-- A resolved form that does not start with the root string fails
`is_safe_path`. -/
theorem not_started_not_safe (root : String) (resolve : String → Option String)
    (q r : String) (hres : resolve q = some r)
    (hpre : strStarts r root = false) :
    is_safe_path root resolve q = false := by
  simp [is_safe_path, hres, hpre]

/-- A resolved form containing a denylisted substring
(case-insensitively) fails `is_safe_path`, whether or not it is under
the root. -/
theorem denied_sub_not_safe (root : String) (resolve : String → Option String)
    (q r : String) (pat : String) (hres : resolve q = some r)
    (hmem : pat ∈ denied_patterns)
    (hsub : hasSub pat.data (lowerChars r.data) = true) :
    is_safe_path root resolve q = false := by
  simp only [is_safe_path, hres]
  have hall : denied_patterns.all
      (fun pat => !(hasSub pat.data (lowerChars r.data))) = false :=
    List.all_eq_false.mpr ⟨pat, hmem, by simp [hsub]⟩
  simp [hall]

/-- A successful `get_safe_path` passed the safety check and returned
the candidate path unresolved. -/
theorem get_safe_path_some (root p sp : String)
    (resolve : String → Option String)
    (h : get_safe_path root resolve p = some sp) :
    is_safe_path root resolve (candidate root p) = true ∧
    sp = candidate root p := by
  by_cases hs : is_safe_path root resolve (candidate root p) = true
  · refine ⟨hs, ?_⟩
    simp [get_safe_path, hs] at h
    exact h.symm
  · simp [get_safe_path, Bool.eq_false_iff.mpr hs] at h

/-- A path accepted by `is_safe_path` resolved successfully and its
resolved form contains no denylisted substring. -/
theorem safe_no_denied (root q r pat : String)
    (resolve : String → Option String)
    (hres : resolve q = some r)
    (hsafe : is_safe_path root resolve q = true)
    (hmem : pat ∈ denied_patterns) :
    hasSub pat.data (lowerChars r.data) = false := by
  simp only [is_safe_path, hres, Bool.and_eq_true, List.all_eq_true] at hsafe
  have h := hsafe.2 pat hmem
  simp only [Bool.not_eq_true'] at h
  exact h

/-- C1: every candidate whose resolved form does not begin with the
root's string is rejected by `is_safe_path` and `get_safe_path`, and
all four operations answer the generic sandbox error without
consulting the filesystem (the result is the same constant for every
filesystem). -/
theorem C1_outside_root_rejected (root p r : String)
    (resolve : String → Option String)
    (hres : resolve (candidate root p) = some r)
    (hpre : strStarts r root = false) :
    is_safe_path root resolve (candidate root p) = false ∧
    get_safe_path root resolve p = none ∧
    (∀ fs, list_directory root resolve fs p =
      .error ("Invalid or unsafe path")) ∧
    (∀ fs enc, read_file root resolve fs (some p) enc =
      .error ("Invalid or unsafe path")) ∧
    (∀ fs pat, search_files root resolve fs p pat =
      .error ("Invalid or unsafe path")) ∧
    (∀ fs, get_file_info root resolve fs (some p) =
      .error ("Invalid or unsafe path")) := by
  have hs : is_safe_path root resolve (candidate root p) = false :=
    not_started_not_safe root resolve (candidate root p) r hres hpre
  have hg : get_safe_path root resolve p = none := by
    simp [get_safe_path, hs]
  exact ⟨hs, hg, fun fs => by simp [list_directory, hg],
    fun fs enc => by simp [read_file, hg],
    fun fs pat => by simp [search_files, hg],
    fun fs => by simp [get_file_info, hg]⟩

/-- Witness for C1: `/etc/shadow` resolves outside `/sandbox` and is
rejected. -/
theorem C1_witness :
    is_safe_path ("/sandbox") resolveW (candidate ("/sandbox") ("/etc/shadow")) = false ∧
    get_safe_path ("/sandbox") resolveW ("/etc/shadow") = none := by
  have h := C1_outside_root_rejected ("/sandbox") ("/etc/shadow") ("/etc/shadow")
    resolveW (by decide) (by decide)
  exact ⟨h.1, h.2.1⟩

/-- C2: every candidate whose resolved form contains a denylisted
substring (case-insensitively) is rejected by `is_safe_path` and
`get_safe_path`, with no assumption that the path is outside the root:
rejection holds even for paths under the root. -/
theorem C2_denylisted_substring_rejected (root p r pat : String)
    (resolve : String → Option String)
    (hres : resolve (candidate root p) = some r)
    (hmem : pat ∈ denied_patterns)
    (hsub : hasSub pat.data (lowerChars r.data) = true) :
    is_safe_path root resolve (candidate root p) = false ∧
    get_safe_path root resolve p = none := by
  have hs : is_safe_path root resolve (candidate root p) = false :=
    denied_sub_not_safe root resolve (candidate root p) r pat hres hmem hsub
  exact ⟨hs, by simp [get_safe_path, hs]⟩

/-- Witness for C2: `proj/.git/config` resolves under the root yet is
rejected because its resolved form contains `.git`. -/
theorem C2_witness :
    strStarts ("/sandbox/proj/.git/config") ("/sandbox") = true ∧
    get_safe_path ("/sandbox") resolveW ("proj/.git/config") = none := by
  have h := C2_denylisted_substring_rejected ("/sandbox") ("proj/.git/config")
    ("/sandbox/proj/.git/config") (".git") resolveW (by decide) (by decide) (by decide)
  exact ⟨by decide, h.2⟩

/-- C5: for a sandbox-admissible existing regular file with an
allow-listed extension, `read_file` succeeds at exactly the 10 MiB
cap, fails with the file-too-large error one byte over it, and never
returns content above the cap. -/
theorem C5_size_cap (root p sp enc : String)
    (resolve : String → Option String) (fs : String → Option FileNode)
    (node : FileNode)
    (hgs : get_safe_path root resolve p = some sp)
    (hfs : fs sp = some node)
    (hfile : node.isFile = true)
    (hext : allowed_extensions.contains (lowerStr (pySuffix (baseName sp))) = true) :
    (node.size = max_file_size →
      read_file root resolve fs (some p) enc =
        .ok ⟨p, node.content, node.content.length, enc⟩) ∧
    (node.size = max_file_size + 1 →
      read_file root resolve fs (some p) enc =
        .error ("File too large (max 10MB)")) ∧
    (max_file_size < node.size →
      ∀ out, read_file root resolve fs (some p) enc ≠ .ok out) := by
  have hmem : lowerStr (pySuffix (baseName sp)) ∈ allowed_extensions := by
    simpa using hext
  refine ⟨fun hsz => ?_, fun hsz => ?_, fun hsz out h => ?_⟩
  · simp [read_file, hgs, hfs, hfile, hmem, hsz]
  · have hgt : node.size > max_file_size := by omega
    simp only [read_file, hgs, hfs, hfile, Bool.not_true, Bool.false_eq_true,
      if_false, hgt, if_true]
    rfl
  · simp [read_file, hgs, hfs, hfile, hsz] at h

/-- Witness for C5: `notes.txt` of exactly the cap size is read;
`big.txt` of cap-plus-one fails with the size error. -/
theorem C5_witness :
    read_file rootW resolveW fsW (some ("notes.txt")) ("utf-8") =
      .ok ⟨("notes.txt"), ("hello"), String.length ("hello"), ("utf-8")⟩ ∧
    read_file rootW resolveW fsW (some ("big.txt")) ("utf-8") =
      .error ("File too large (max 10MB)") := by
  constructor
  · exact (C5_size_cap rootW ("notes.txt") ("/sandbox/notes.txt") ("utf-8")
      resolveW fsW ⟨true, max_file_size, "hello", []⟩
      (by decide) rfl rfl (by decide)).1 rfl
  · exact (C5_size_cap rootW ("big.txt") ("/sandbox/big.txt") ("utf-8")
      resolveW fsW ⟨true, max_file_size + 1, "hello", []⟩
      (by decide) rfl rfl (by decide)).2.1 rfl

/-- C6: when the candidate's extension (lower-cased suffix of the safe
path) is not allow-listed, `read_file` returns an error result and
never the content, whatever the file contains. -/
theorem C6_extension_allowlist (root p enc : String)
    (resolve : String → Option String) (fs : String → Option FileNode)
    (hext : ∀ sp, get_safe_path root resolve p = some sp →
      allowed_extensions.contains (lowerStr (pySuffix (baseName sp))) = false) :
    (∃ msg, read_file root resolve fs (some p) enc = .error msg) ∧
    (∀ out, read_file root resolve fs (some p) enc ≠ .ok out) := by
  have herr : ∃ msg, read_file root resolve fs (some p) enc = .error msg := by
    cases hgs : get_safe_path root resolve p with
    | none => exact ⟨("Invalid or unsafe path"), by simp [read_file, hgs]⟩
    | some sp =>
      cases hfs : fs sp with
      | none => exact ⟨("File does not exist"), by simp [read_file, hgs, hfs]⟩
      | some node =>
        cases hfile : node.isFile with
        | false =>
          exact ⟨("Path is not a file"), by simp [read_file, hgs, hfs, hfile]⟩
        | true =>
          by_cases hsz : node.size > max_file_size
          · refine ⟨(("File too large (max ") ++
              toString (max_file_size / 1024 / 1024) ++ ("MB)")), ?_⟩
            simp [read_file, hgs, hfs, hfile, hsz]
          · have hnm : lowerStr (pySuffix (baseName sp)) ∉ allowed_extensions := by
              simpa using hext sp hgs
            refine ⟨(("File type ") ++ pySuffix (baseName sp) ++ (" not allowed")), ?_⟩
            simp [read_file, hgs, hfs, hfile, hsz, hnm]
  refine ⟨herr, fun out h => ?_⟩
  obtain ⟨msg, hm⟩ := herr
  rw [hm] at h
  exact Except.noConfusion h

/-- Witness for C6: `tool.exe` exists and is small, but `.exe` is not
allow-listed, so `read_file` reports an error and no content. -/
theorem C6_witness :
    (∃ msg, read_file rootW resolveW fsW (some ("tool.exe")) ("utf-8") =
      Except.error msg) ∧
    (∀ out, read_file rootW resolveW fsW (some ("tool.exe")) ("utf-8") ≠
      Except.ok out) := by
  apply C6_extension_allowlist
  intro sp h
  have hc : get_safe_path rootW resolveW ("tool.exe") =
      some ("/sandbox/tool.exe") := by decide
  rw [hc] at h
  cases h
  decide

/-- C8: any two sandbox-rejected inputs to any of the four operations
yield the identical generic error payload, independent of the input
path, the filesystem, and the rule that caused the rejection. -/
theorem C8_uniform_rejection_message (root enc pat : String)
    (resolve : String → Option String)
    (p1 p2 p3 p4 : String)
    (fs1 fs2 fs3 fs4 : String → Option FileNode)
    (h1 : get_safe_path root resolve p1 = none)
    (h2 : get_safe_path root resolve p2 = none)
    (h3 : get_safe_path root resolve p3 = none)
    (h4 : get_safe_path root resolve p4 = none) :
    list_directory root resolve fs1 p1 = .error ("Invalid or unsafe path") ∧
    read_file root resolve fs2 (some p2) enc = .error ("Invalid or unsafe path") ∧
    search_files root resolve fs3 p3 pat = .error ("Invalid or unsafe path") ∧
    get_file_info root resolve fs4 (some p4) = .error ("Invalid or unsafe path") :=
  ⟨by simp [list_directory, h1], by simp [read_file, h2],
   by simp [search_files, h3], by simp [get_file_info, h4]⟩

/-- Witness for C8: four differently-caused rejections (traversal
marker, credential directory, outside root, secrets directory) all
produce the same generic message. -/
theorem C8_witness :
    list_directory rootW resolveW fsW ("../x") =
      .error ("Invalid or unsafe path") ∧
    read_file rootW resolveW fsW (some ("proj/.ssh/id_rsa")) ("utf-8") =
      .error ("Invalid or unsafe path") ∧
    search_files rootW resolveW fsW ("/etc/hosts") ("a") =
      .error ("Invalid or unsafe path") ∧
    get_file_info rootW resolveW fsW (some ("secrets/key.txt")) =
      .error ("Invalid or unsafe path") :=
  C8_uniform_rejection_message rootW ("utf-8") ("a") resolveW
    ("../x") ("proj/.ssh/id_rsa") ("/etc/hosts") ("secrets/key.txt")
    fsW fsW fsW fsW (by decide) (by decide) (by decide) (by decide)

/-- C9: every response produced by the dispatcher carries the request's
correlation identifier unchanged, whatever the tool implementations;
the absence of a response characterizes exactly the `initialized`
notification. -/
theorem C9_correlation_id {ι β : Type}
    (listDir : String → β) (readF : Option String → String → β)
    (searchF : Option String → String → β) (fileInfo : Option String → β)
    (req : Request ι) :
    (∀ resp, handle_request listDir readF searchF fileInfo req = some resp →
      resp.id = req.id) ∧
    (handle_request listDir readF searchF fileInfo req = none ↔
      req.method = "initialized") := by
  obtain ⟨m, i, tn, args⟩ := req
  constructor
  · intro resp h
    simp only [handle_request] at h
    split_ifs at h <;>
      first
        | exact Option.noConfusion h
        | (injection h with h5; subst h5; rfl)
        | (cases tn with
           | none => injection h with h5; subst h5; rfl
           | some t =>
             dsimp only at h
             split_ifs at h <;> (injection h with h5; subst h5; rfl))
  · constructor
    · intro h
      simp only [handle_request] at h
      split_ifs at h with h1 h2 h3 h4 <;>
        first
          | exact Option.noConfusion h
          | exact h2
          | (cases tn with
             | none => exact Option.noConfusion h
             | some t =>
               dsimp only at h
               split_ifs at h)
    · intro h
      subst h
      simp [handle_request]

/-- Witness for C9: an `initialized` notification gets no response; an
`initialize` request's response echoes id 42. -/
theorem C9_witness :
    handle_request opsListW opsReadW opsSearchW opsInfoW
      (⟨("initialized"), (7 : Nat), none, []⟩ : Request Nat) = none ∧
    Response.id (ι := Nat) (β := ToolOut) ⟨42, RespBody.initResult⟩ = 42 := by
  constructor
  · exact (C9_correlation_id opsListW opsReadW opsSearchW opsInfoW
      (⟨("initialized"), (7 : Nat), none, []⟩ : Request Nat)).2.mpr rfl
  · exact (C9_correlation_id opsListW opsReadW opsSearchW opsInfoW
      (⟨("initialize"), (42 : Nat), none, []⟩ : Request Nat)).1
      ⟨42, RespBody.initResult⟩ rfl

/-- Refutation of C7 as stated: a `tools/call` of `read_file` with no
`path` argument is not rejected by schema validation; the dispatcher
invokes the `read_file` operation with a `None` path, and the response
is a success envelope embedding that operation's own error result. -/
theorem C7_counterexample :
    handle_request opsListW opsReadW opsSearchW opsInfoW
      (⟨("tools/call"), (7 : Nat), some ("read_file"), []⟩ : Request Nat) =
      some ⟨7, RespBody.toolResult (ToolOut.readOut
        (Except.error ("Invalid or unsafe path")))⟩ := rfl

/-- C7 amended: the dispatcher performs no schema validation.  For any
tool implementations, a `tools/call` of `read_file` whose arguments
lack `path` still invokes the operation, passing `None`; the real
`read_file` then reports its operation-level sandbox error. -/
theorem C7_no_schema_validation :
    (∀ (ι β : Type) (listDir : String → β) (readF : Option String → String → β)
       (searchF : Option String → String → β) (fileInfo : Option String → β)
       (i : ι) (args : List (String × String)),
       List.lookup ("path") args = none →
       handle_request listDir readF searchF fileInfo
         ⟨("tools/call"), i, some ("read_file"), args⟩ =
         some ⟨i, RespBody.toolResult
           (readF none ((List.lookup ("encoding") args).getD ("utf-8")))⟩) ∧
    (∀ root resolve fs enc, read_file root resolve fs none enc =
      Except.error ("Invalid or unsafe path")) := by
  constructor
  · intro ι β listDir readF searchF fileInfo i args hargs
    simp [handle_request, hargs]
  · intro root resolve fs enc
    rfl

/-- Witness for C7 amended: with only an `encoding` argument present,
the dispatcher invokes `read_file` with a `None` path and the
operation's error lands inside the success envelope. -/
theorem C7_witness :
    handle_request opsListW opsReadW opsSearchW opsInfoW
      (⟨("tools/call"), (9 : Nat), some ("read_file"),
        [(("encoding"), ("ascii"))]⟩ : Request Nat) =
      some ⟨9, RespBody.toolResult (opsReadW none ("ascii"))⟩ ∧
    read_file rootW resolveW fsW none ("ascii") =
      Except.error ("Invalid or unsafe path") := by
  constructor
  · exact C7_no_schema_validation.1 Nat ToolOut opsListW opsReadW opsSearchW
      opsInfoW 9 [(("encoding"), ("ascii"))] rfl
  · exact C7_no_schema_validation.2 rootW resolveW fsW ("ascii")

/-- Decidable equality of results, for evaluating operations on
concrete inputs. -/
instance instExceptDecEq {ε α : Type} [DecidableEq ε] [DecidableEq α] :
    DecidableEq (Except ε α)
  | Except.error a, Except.error b =>
    if h : a = b then isTrue (by rw [h])
    else isFalse (fun hc => h (by cases hc; rfl))
  | Except.error _, Except.ok _ => isFalse (fun hc => Except.noConfusion hc)
  | Except.ok _, Except.error _ => isFalse (fun hc => Except.noConfusion hc)
  | Except.ok a, Except.ok b =>
    if h : a = b then isTrue (by rw [h])
    else isFalse (fun hc => h (by cases hc; rfl))

/-- One unfolding step of `charsLe` as a disjunction. -/
theorem charsLe_cons_iff (a b : Char) (as bs : List Char) :
    charsLe (a :: as) (b :: bs) = true ↔
      a.toNat < b.toNat ∨ (a.toNat = b.toNat ∧ charsLe as bs = true) := by
  simp only [charsLe]
  split_ifs with h1 h2
  · simp [h1]
  · simp only [Bool.false_eq_true, false_iff]
    rintro (h | ⟨h, _⟩) <;> omega
  · have he : a.toNat = b.toNat := by omega
    simp [he]

/-- Code-point comparison is total. -/
theorem charsLe_total : ∀ as bs : List Char,
    charsLe as bs = true ∨ charsLe bs as = true
  | [], _ => Or.inl rfl
  | _ :: _, [] => Or.inr rfl
  | a :: as, b :: bs => by
    rw [charsLe_cons_iff, charsLe_cons_iff]
    rcases Nat.lt_trichotomy a.toNat b.toNat with h | h | h
    · exact Or.inl (Or.inl h)
    · rcases charsLe_total as bs with ih | ih
      · exact Or.inl (Or.inr ⟨h, ih⟩)
      · exact Or.inr (Or.inr ⟨h.symm, ih⟩)
    · exact Or.inr (Or.inl h)

/-- Code-point comparison is transitive. -/
theorem charsLe_trans : ∀ as bs cs : List Char, charsLe as bs = true →
    charsLe bs cs = true → charsLe as cs = true
  | [], _, _, _, _ => rfl
  | _ :: _, [], _, h1, _ => by simp [charsLe] at h1
  | _ :: _, _ :: _, [], _, h2 => by simp [charsLe] at h2
  | a :: as, b :: bs, c :: cs, h1, h2 => by
    rw [charsLe_cons_iff] at h1 h2 ⊢
    rcases h1 with h1 | ⟨h1e, h1t⟩
    · rcases h2 with h2 | ⟨h2e, h2t⟩
      · exact Or.inl (by omega)
      · exact Or.inl (by omega)
    · rcases h2 with h2 | ⟨h2e, h2t⟩
      · exact Or.inl (by omega)
      · exact Or.inr ⟨by omega, charsLe_trans as bs cs h1t h2t⟩

/-- The Python sort key order as a disjunction. -/
theorem itemKeyLe_iff (a b : DirItem) :
    itemKeyLe a b = true ↔ fileRank a < fileRank b ∨
      (fileRank a = fileRank b ∧ charsLe a.name.data b.name.data = true) := by
  unfold itemKeyLe
  split_ifs with h1 h2
  · simp [h1]
  · simp only [Bool.false_eq_true, false_iff]
    rintro (h | ⟨h, _⟩) <;> omega
  · have he : fileRank a = fileRank b := by omega
    simp [he]

theorem itemKeyLe_total (a b : DirItem) :
    itemKeyLe a b = true ∨ itemKeyLe b a = true := by
  rw [itemKeyLe_iff, itemKeyLe_iff]
  rcases Nat.lt_trichotomy (fileRank a) (fileRank b) with h | h | h
  · exact Or.inl (Or.inl h)
  · rcases charsLe_total a.name.data b.name.data with hc | hc
    · exact Or.inl (Or.inr ⟨h, hc⟩)
    · exact Or.inr (Or.inr ⟨h.symm, hc⟩)
  · exact Or.inr (Or.inl h)

theorem itemKeyLe_trans (a b c : DirItem) (h1 : itemKeyLe a b = true)
    (h2 : itemKeyLe b c = true) : itemKeyLe a c = true := by
  rw [itemKeyLe_iff] at h1 h2 ⊢
  rcases h1 with h1 | ⟨h1e, h1t⟩
  · rcases h2 with h2 | ⟨h2e, h2t⟩
    · exact Or.inl (by omega)
    · exact Or.inl (by omega)
  · rcases h2 with h2 | ⟨h2e, h2t⟩
    · exact Or.inl (by omega)
    · exact Or.inr ⟨by omega, charsLe_trans _ _ _ h1t h2t⟩

instance instDirItemLeTotal : IsTotal DirItem (fun a b => itemKeyLe a b = true) :=
  ⟨itemKeyLe_total⟩

instance instDirItemLeTrans : IsTrans DirItem (fun a b => itemKeyLe a b = true) :=
  ⟨itemKeyLe_trans⟩

/-- Refutation of C4's concrete scenario: for a directory holding
`a.txt`, `B.txt` and `sub/`, the sort key compares names by code
point, where uppercase `B` precedes lowercase `a`, so the output order
is NOT `sub`, `a.txt`, `B.txt`. -/
theorem C4_counterexample :
    (list_directory rootW resolveW fsW ("docs")).map
      (fun o => o.items.map (fun it => it.name)) ≠
      Except.ok (["sub", "a.txt", "B.txt"]) := by decide

/-- C4 amended: `list_directory` output is sorted by the stable key
`(is_file, name)`: all directories precede all files, and names within
the result are in code-point order whenever kinds agree (uppercase
before lowercase); the scenario directory yields `sub`, `B.txt`,
`a.txt`. -/
theorem C4_sort_order :
    (∀ (root p : String) (resolve : String → Option String)
       (fs : String → Option FileNode) (out : ListOk),
       list_directory root resolve fs p = .ok out →
       List.Pairwise (fun a b => itemKeyLe a b = true) out.items ∧
       List.Pairwise (fun a b => a.isDir = false → b.isDir = false) out.items ∧
       List.Pairwise (fun a b => a.isDir = b.isDir →
         charsLe a.name.data b.name.data = true) out.items) ∧
    ((list_directory rootW resolveW fsW ("docs")).map
      (fun o => o.items.map (fun it => it.name)) =
      Except.ok (["sub", "B.txt", "a.txt"])) := by
  constructor
  · intro root p resolve fs out h
    have hsorted : List.Pairwise (fun a b => itemKeyLe a b = true) out.items := by
      unfold list_directory at h
      cases hgs : get_safe_path root resolve p with
      | none => rw [hgs] at h; exact Except.noConfusion h
      | some sp =>
        rw [hgs] at h
        dsimp only at h
        cases hfs : fs sp with
        | none => rw [hfs] at h; exact Except.noConfusion h
        | some node =>
          rw [hfs] at h
          dsimp only at h
          by_cases hf : node.isFile = true
          · rw [if_pos hf] at h; exact Except.noConfusion h
          · rw [if_neg hf] at h
            injection h with h5
            rw [← h5]
            exact List.sorted_insertionSort _ _
    refine ⟨hsorted, hsorted.imp ?_, hsorted.imp ?_⟩
    · intro a b hle ha
      by_contra hb
      have hb2 : b.isDir = true := by
        cases hbv : b.isDir
        · exact absurd hbv hb
        · rfl
      have hfa : fileRank a = 1 := by simp [fileRank, ha]
      have hfb : fileRank b = 0 := by simp [fileRank, hb2]
      rw [itemKeyLe_iff, hfa, hfb] at hle
      rcases hle with hle | ⟨hle, _⟩ <;> omega
    · intro a b hle heq
      rw [itemKeyLe_iff] at hle
      have hr : fileRank a = fileRank b := by
        simp only [fileRank, heq]
      rcases hle with hle | ⟨_, hc⟩
      · omega
      · exact hc
  · decide

/-- Witness for C4 amended: the scenario listing is accepted and its
sorted items satisfy the pairwise key order. -/
theorem C4_witness :
    List.Pairwise (fun a b => itemKeyLe a b = true)
      ([⟨("sub"), true, ("docs/sub"), none⟩,
        ⟨("B.txt"), false, ("docs/B.txt"), some 5⟩,
        ⟨("a.txt"), false, ("docs/a.txt"), some 5⟩] : List DirItem) :=
  (C4_sort_order.1 rootW ("docs") resolveW fsW
    ⟨("docs"),
     [⟨("sub"), true, ("docs/sub"), none⟩,
      ⟨("B.txt"), false, ("docs/B.txt"), some 5⟩,
      ⟨("a.txt"), false, ("docs/a.txt"), some 5⟩]⟩ (by decide)).1

/-- A successful search result is the accumulator truncated to 100. -/
theorem search_files_le (root p pattern : String)
    (resolve : String → Option String) (fs : String → Option FileNode)
    (out : SearchOk)
    (h : search_files root resolve fs p pattern = .ok out) :
    out.found.length ≤ 100 := by
  unfold search_files at h
  cases hgs : get_safe_path root resolve p with
  | none => rw [hgs] at h; exact Except.noConfusion h
  | some sp =>
    rw [hgs] at h
    dsimp only at h
    cases hfs : fs sp with
    | none => rw [hfs] at h; exact Except.noConfusion h
    | some node =>
      rw [hfs] at h
      dsimp only at h
      by_cases hf : node.isFile = true
      · rw [if_pos hf] at h; exact Except.noConfusion h
      · rw [if_neg hf] at h
        injection h with h5
        rw [← h5]
        simp [List.length_take]

/-- The recursion guard: at depth greater than 5 the traversal returns
its accumulator unchanged. -/
theorem searchDir_depth_stop (root pattern path : String)
    (resolve : String → Option String) (children : List FSEntry)
    (depth : Nat) (acc : List SMatch) (h : 5 < depth) :
    searchDir root resolve pattern path children depth acc = acc := by
  simp [searchDir, h]

/-- Over a flat directory of sandbox-safe files, the traversal appends
exactly the entries whose lowered name contains the lowered pattern,
in order. -/
theorem searchItems_files (root pattern curPath : String)
    (resolve : String → Option String) (depth : Nat) :
    ∀ (items : List FSEntry) (acc : List SMatch),
    (∀ e ∈ items, e.isDir = false) →
    (∀ e ∈ items, is_safe_path root resolve
      (curPath ++ (String.mk ['/']) ++ e.name) = true) →
    searchItems root resolve pattern curPath items depth acc =
      acc ++ (items.filter (fun e =>
          hasSub (lowerChars pattern.data) (lowerChars e.name.data))).map
        (fun e => ⟨e.name, relTo root (curPath ++ (String.mk ['/']) ++ e.name),
          false⟩) := by
  intro items
  induction items with
  | nil => intro acc _ _; simp [searchItems]
  | cons e rest ih =>
    intro acc hf hs
    cases e with
    | dir n cs =>
      have hd := hf (.dir n cs) (List.mem_cons_self _ _)
      simp [FSEntry.isDir] at hd
    | file n sz =>
      have hsafe := hs (.file n sz) (List.mem_cons_self _ _)
      have hf2 : ∀ x ∈ rest, x.isDir = false :=
        fun x hx => hf x (List.mem_cons_of_mem _ hx)
      have hs2 : ∀ x ∈ rest, is_safe_path root resolve
          (curPath ++ (String.mk ['/']) ++ x.name) = true :=
        fun x hx => hs x (List.mem_cons_of_mem _ hx)
      simp only [searchItems, FSEntry.name] at hsafe ⊢
      rw [if_pos hsafe]
      by_cases hm : hasSub (lowerChars pattern.data) (lowerChars n.data) = true
      · rw [if_pos hm, ih _ hf2 hs2]
        simp [List.filter_cons, hm, FSEntry.name]
      · rw [if_neg hm, ih _ hf2 hs2]
        simp [List.filter_cons, hm, FSEntry.name]

/-- Early stop: once 100 matches are accumulated, a directory entry may
still be matched by name, but its subtree is not descended into. -/
theorem searchItems_stop_descent (root pattern curPath nm : String)
    (resolve : String → Option String) (cs rest : List FSEntry)
    (depth : Nat) (acc : List SMatch) (hfull : 100 ≤ acc.length) :
    searchItems root resolve pattern curPath (.dir nm cs :: rest) depth acc =
      searchItems root resolve pattern curPath rest depth
        (if is_safe_path root resolve (curPath ++ (String.mk ['/']) ++ nm) then
          (if hasSub (lowerChars pattern.data) (lowerChars nm.data)
           then acc ++ [⟨nm, relTo root (curPath ++ (String.mk ['/']) ++ nm), true⟩]
           else acc)
         else acc) := by
  simp only [searchItems, FSEntry.name]
  split_ifs <;> try rfl
  all_goals
    exfalso
    simp only [List.length_append, List.length_cons, List.length_nil] at *
    omega

/-- C3: `search_files` returns at most 100 matches; the traversal
returns unchanged past depth 5; matching over a flat safe directory is
exactly case-insensitive substring containment of the pattern in the
entry name; and once 100 matches are accumulated no further subtree is
descended into. -/
theorem C3_search_bounds :
    (∀ (root p pattern : String) (resolve : String → Option String)
       (fs : String → Option FileNode) (out : SearchOk),
       search_files root resolve fs p pattern = .ok out →
       out.found.length ≤ 100) ∧
    (∀ (root pattern path : String) (resolve : String → Option String)
       (children : List FSEntry) (depth : Nat) (acc : List SMatch),
       5 < depth → searchDir root resolve pattern path children depth acc = acc) ∧
    (∀ (root pattern curPath : String) (resolve : String → Option String)
       (depth : Nat) (items : List FSEntry) (acc : List SMatch),
       (∀ e ∈ items, e.isDir = false) →
       (∀ e ∈ items, is_safe_path root resolve
         (curPath ++ (String.mk ['/']) ++ e.name) = true) →
       searchItems root resolve pattern curPath items depth acc =
         acc ++ (items.filter (fun e =>
             hasSub (lowerChars pattern.data) (lowerChars e.name.data))).map
           (fun e => ⟨e.name,
             relTo root (curPath ++ (String.mk ['/']) ++ e.name), false⟩)) ∧
    (∀ (root pattern curPath nm : String) (resolve : String → Option String)
       (cs rest : List FSEntry) (depth : Nat) (acc : List SMatch),
       100 ≤ acc.length →
       searchItems root resolve pattern curPath (.dir nm cs :: rest) depth acc =
         searchItems root resolve pattern curPath rest depth
           (if is_safe_path root resolve (curPath ++ (String.mk ['/']) ++ nm)
            then
             (if hasSub (lowerChars pattern.data) (lowerChars nm.data)
              then acc ++
                [⟨nm, relTo root (curPath ++ (String.mk ['/']) ++ nm), true⟩]
              else acc)
            else acc)) :=
  ⟨fun root p pattern resolve fs out h =>
    search_files_le root p pattern resolve fs out h,
   fun root pattern path resolve children depth acc h =>
    searchDir_depth_stop root pattern path resolve children depth acc h,
   fun root pattern curPath resolve depth items acc hf hs =>
    searchItems_files root pattern curPath resolve depth items acc hf hs,
   fun root pattern curPath nm resolve cs rest depth acc h =>
    searchItems_stop_descent root pattern curPath nm resolve cs rest depth acc h⟩

/-- Witness for C3: a concrete search returns one match (≤ 100); depth
6 is cut off; a flat directory is filtered by substring; a full
accumulator of 100 matches blocks descent into a matching subtree. -/
theorem C3_witness :
    (SearchOk.found ⟨("a"), ("docs"),
      [⟨("a.txt"), ("docs/a.txt"), false⟩]⟩).length ≤ 100 ∧
    searchDir rootW resolveW ("a") ("/sandbox/docs") [.file ("a.txt") 5] 6
      [] = [] ∧
    searchItems rootW resolveW ("txt") ("/sandbox/docs")
      [.file ("a.txt") 5, .file ("sub") 0] 0 [] =
      [⟨("a.txt"), ("docs/a.txt"), false⟩] ∧
    searchItems rootW resolveW ("q") ("/sandbox/docs")
      [.dir ("sub") [.file ("q.txt") 1]] 0
      (List.replicate 100 ⟨("m"), ("m"), false⟩) =
      List.replicate 100 ⟨("m"), ("m"), false⟩ := by
  refine ⟨?_, ?_, ?_, ?_⟩
  · exact C3_search_bounds.1 rootW ("docs") ("a") resolveW fsW
      ⟨("a"), ("docs"), [⟨("a.txt"), ("docs/a.txt"), false⟩]⟩
      (by
        have h1 : get_safe_path rootW resolveW ("docs") =
            some ("/sandbox/docs") := by decide
        have h2 : fsW ("/sandbox/docs") =
            some ⟨false, 0, "",
              [.file ("a.txt") 5, .file ("B.txt") 5, .dir ("sub") []]⟩ := rfl
        simp +decide [search_files, h1, h2, searchDir, searchItems])
  · exact C3_search_bounds.2.1 rootW ("a") ("/sandbox/docs") resolveW
      [.file ("a.txt") 5] 6 [] (by omega)
  · have h := C3_search_bounds.2.2.1 rootW ("txt") ("/sandbox/docs") resolveW
      0 [.file ("a.txt") 5, .file ("sub") 0] []
      (by intro e he; fin_cases he <;> rfl)
      (by intro e he; fin_cases he <;> decide)
    rw [h]
    decide
  · have h := C3_search_bounds.2.2.2 rootW ("q") ("/sandbox/docs") ("sub")
      resolveW [.file ("q.txt") 1] [] 0
      (List.replicate 100 ⟨("m"), ("m"), false⟩)
      (by simp)
    rw [h]
    simp +decide [searchItems]

theorem isPre_refl : ∀ l : List Char, isPre l l = true
  | [] => rfl
  | c :: cs => by simp [isPre, isPre_refl cs]

/-- A trailing segment is found by the substring scan. -/
theorem hasSub_append : ∀ (pre e : List Char), hasSub e (pre ++ e) = true
  | [], e => by
    cases e with
    | nil => rfl
    | cons c cs => simp [hasSub, isPre_refl]
  | c :: pre, e => by
    have ih := hasSub_append pre e
    simp [hasSub, ih]

/-- A suffix is in particular a substring. -/
theorem hasSub_of_suffix (e hay : List Char) (h : e <:+ hay) :
    hasSub e hay = true := by
  obtain ⟨pre, rfl⟩ := h
  exact hasSub_append pre e

/-- Substring containment extends along suffixes of the haystack. -/
theorem hasSub_mono (n xs ys : List Char) (h : hasSub n xs = true)
    (hsfx : xs <:+ ys) : hasSub n ys = true := by
  obtain ⟨pre, rfl⟩ := hsfx
  induction pre with
  | nil => exact h
  | cons c pre ih =>
    simp [hasSub, ih]

/-- The segment found by `lastExt` is a suffix of the name. -/
theorem lastExt_suffix : ∀ (cs e : List Char), lastExt cs = some e → e <:+ cs
  | [], e, h => by simp [lastExt] at h
  | c :: rest, e, h => by
    simp only [lastExt] at h
    cases hr : lastExt rest with
    | some e2 =>
      rw [hr] at h
      injection h with h2
      subst h2
      exact (lastExt_suffix rest e2 hr).trans (List.suffix_cons c rest)
    | none =>
      rw [hr] at h
      split_ifs at h
      injection h with h2
      subst h2
      exact List.suffix_refl _

/-- The `pathlib` suffix is a suffix of the name's characters. -/
theorem pySuffix_suffix (name : String) :
    (pySuffix name).data <:+ name.data := by
  unfold pySuffix
  cases hl : lastExt name.data with
  | none => exact List.nil_suffix
  | some e =>
    dsimp only
    split_ifs with hc
    · exact lastExt_suffix _ _ hl
    · exact List.nil_suffix

/-- The last path component is a suffix of the path's characters. -/
theorem baseName_suffix (s : String) : (baseName s).data <:+ s.data := by
  refine ⟨(s.data.reverse.dropWhile (fun c => c != '/')).reverse, ?_⟩
  show (s.data.reverse.dropWhile (fun c => c != '/')).reverse ++
    ((s.data.reverse.takeWhile (fun c => c != '/')).reverse) = s.data
  rw [← List.reverse_append, List.takeWhile_append_dropWhile,
    List.reverse_reverse]

/-- Suffixes are preserved by mapping. -/
theorem suffix_map (f : Char → Char) (xs ys : List Char) (h : xs <:+ ys) :
    xs.map f <:+ ys.map f := by
  obtain ⟨pre, rfl⟩ := h
  exact ⟨pre.map f, (List.map_append f pre xs).symm⟩

/-- C10: any path whose resolved form contains `.env`
(case-insensitively) is rejected by the sandbox and `read_file`
answers the generic sandbox error; every name with extension `.env`
contains `.env`, so in particular a resolved path whose final
component has extension `.env` is rejected; and whenever `read_file`
returns content, the resolved form did not contain `.env` — the
`.env` entry of the allow-list is unreachable. -/
theorem C10_env_entry_unreachable :
    (∀ (root p r : String) (resolve : String → Option String),
      resolve (candidate root p) = some r →
      hasSub ((".env").data) (lowerChars r.data) = true →
      get_safe_path root resolve p = none ∧
      (∀ fs enc, read_file root resolve fs (some p) enc =
        Except.error ("Invalid or unsafe path"))) ∧
    (∀ name : String, lowerStr (pySuffix name) = (".env") →
      hasSub ((".env").data) (lowerChars name.data) = true) ∧
    (∀ (root p r : String) (resolve : String → Option String),
      resolve (candidate root p) = some r →
      lowerStr (pySuffix (baseName r)) = (".env") →
      get_safe_path root resolve p = none) ∧
    (∀ (root p enc : String) (resolve : String → Option String)
       (fs : String → Option FileNode) (out : ReadOk) (r : String),
      read_file root resolve fs (some p) enc = Except.ok out →
      resolve (candidate root p) = some r →
      hasSub ((".env").data) (lowerChars r.data) = false) := by
  have hmem : (".env") ∈ denied_patterns := by decide
  have core : ∀ (root p r : String) (resolve : String → Option String),
      resolve (candidate root p) = some r →
      hasSub ((".env").data) (lowerChars r.data) = true →
      get_safe_path root resolve p = none := by
    intro root p r resolve hres hsub
    have hs : is_safe_path root resolve (candidate root p) = false :=
      denied_sub_not_safe root resolve (candidate root p) r (".env") hres hmem hsub
    simp [get_safe_path, hs]
  have part2 : ∀ name : String, lowerStr (pySuffix name) = (".env") →
      hasSub ((".env").data) (lowerChars name.data) = true := by
    intro name hl
    have hdata : lowerChars (pySuffix name).data = (".env").data := by
      have := congrArg String.data hl
      exact this
    have hsfx : (pySuffix name).data <:+ name.data := pySuffix_suffix name
    have hsfx2 : lowerChars (pySuffix name).data <:+ lowerChars name.data :=
      suffix_map Char.toLower _ _ hsfx
    rw [hdata] at hsfx2
    exact hasSub_of_suffix _ _ hsfx2
  refine ⟨?_, part2, ?_, ?_⟩
  · intro root p r resolve hres hsub
    have hg := core root p r resolve hres hsub
    exact ⟨hg, fun fs enc => by simp [read_file, hg]⟩
  · intro root p r resolve hres hl
    have h1 : hasSub ((".env").data) (lowerChars (baseName r).data) = true :=
      part2 (baseName r) hl
    have h2 : lowerChars (baseName r).data <:+ lowerChars r.data :=
      suffix_map Char.toLower _ _ (baseName_suffix r)
    exact core root p r resolve hres (hasSub_mono _ _ _ h1 h2)
  · intro root p enc resolve fs out r h hres
    unfold read_file at h
    dsimp only at h
    cases hgs : get_safe_path root resolve p with
    | none => rw [hgs] at h; exact Except.noConfusion h
    | some sp =>
      have hsafe := (get_safe_path_some root p sp resolve hgs).1
      exact safe_no_denied root (candidate root p) r (".env") resolve hres hsafe hmem

/-- Witness for C10: `config.env` is rejected with the generic error
although `.env` is allow-listed, while the successfully-read
`notes.txt` resolves to a path free of `.env`. -/
theorem C10_witness :
    get_safe_path rootW resolveW ("config.env") = none ∧
    read_file rootW resolveW fsW (some ("config.env")) ("utf-8") =
      Except.error ("Invalid or unsafe path") ∧
    hasSub ((".env").data) (lowerChars (("config.env")).data) = true ∧
    hasSub ((".env").data) (lowerChars (("/sandbox/notes.txt")).data) = false := by
  have h1 := C10_env_entry_unreachable.1 rootW ("config.env")
    ("/sandbox/config.env") resolveW rfl (by decide)
  refine ⟨h1.1, h1.2 fsW ("utf-8"), ?_, ?_⟩
  · exact C10_env_entry_unreachable.2.1 ("config.env") (by decide)
  · exact C10_env_entry_unreachable.2.2.2 rootW ("notes.txt") ("utf-8")
      resolveW fsW
      ⟨("notes.txt"), ("hello"), String.length ("hello"), ("utf-8")⟩
      ("/sandbox/notes.txt") (by decide) rfl

end FsMcp
